import Mathlib

/-!
# Verification of the fixture/date-section reconciliation pipeline

This file is a shallow embedding, in Lean 4, of the core logic of the
football-dashboard repository:

* the Date-Window Calculator `getDateRange` from `src/lib/football-api.ts`
  (final, pagination-aware variant);
* the paginated fetch client `fetchAllPages` from the same file, modelled
  over an explicit "upstream oracle" describing each page's outcome;
* the Score Assembler (steps 3–4 of `fetchFootballScores`);
* the Persistence Reconciler of the base-data cron
  (`src/app/api/cron/update-section-data/route.ts`, the variant with the
  SatMon-only forecast-history write);
* the Forecast Evaluator helpers `getForecast`, `isForecastCorrect` and
  `determineActualOutcome` from the cron route files.

JavaScript `Date` objects that the code has already converted to the
Europe/Sofia time zone are modelled as a pair of a day number (days since
1970-01-01 in the Sofia-local calendar) and a local hour: the code only
observes zoned dates through `getDay`, `getHours`, `addDays`, `getISOWeek`,
`getYear` and day-level formatting, all of which are functions of that pair.
Calendar functions (`getYear`, `getISOWeek`, `format "yyyy-MM-dd"`) are
implemented over the proleptic Gregorian calendar with the standard
days-from-civil / civil-from-days conversions.
-/

/-! ## Calendar arithmetic

`civilFromDays` and `daysFromCivil` are the standard conversions between a
day count (days since 1970-01-01) and a Gregorian calendar date
`(year, month, day)`.  They are used to implement the `date-fns` functions
`getYear`, `getISOWeek` and `format "yyyy-MM-dd"` that `getDateRange` calls.
-/

/-- Gregorian calendar date of a day number (days since 1970-01-01).
Returns `(year, month, day)`. -/
def civilFromDays (z0 : Int) : Int × Int × Int :=
  let z := z0 + 719468
  let era := Int.fdiv z 146097
  let doe := z - era * 146097
  let yoe := Int.fdiv (doe - Int.fdiv doe 1460 + Int.fdiv doe 36524 - Int.fdiv doe 146096) 365
  let y := yoe + era * 400
  let doy := doe - (365 * yoe + Int.fdiv yoe 4 - Int.fdiv yoe 100)
  let mp := Int.fdiv (5 * doy + 2) 153
  let d := doy - Int.fdiv (153 * mp + 2) 5 + 1
  let m := mp + (if mp < 10 then 3 else -9)
  (y + (if m ≤ 2 then 1 else 0), m, d)

/-- Day number (days since 1970-01-01) of a Gregorian calendar date. -/
def daysFromCivil (y0 m d : Int) : Int :=
  let y := y0 - (if m ≤ 2 then 1 else 0)
  let era := Int.fdiv y 400
  let yoe := y - era * 400
  let mp := Int.emod (m + 9) 12
  let doy := Int.fdiv (153 * mp + 2) 5 + d - 1
  let doe := yoe * 365 + Int.fdiv yoe 4 - Int.fdiv yoe 100 + doy
  era * 146097 + doe - 719468

/-- `date-fns` `getDay`: weekday of a day number, `0 = Sunday … 6 = Saturday`.
1970-01-01 was a Thursday (`4`). -/
def getDayOfWeek (d : Int) : Int :=
  Int.emod (d + 4) 7

/-- Weekday with Monday = 0 (used for ISO-week computation). -/
def weekdayMon0 (d : Int) : Int :=
  Int.emod (d + 3) 7

/-- `date-fns` `getYear`: Gregorian calendar year of a day number. -/
def getYearOfDay (d : Int) : Int :=
  (civilFromDays d).1

/-- `date-fns` `getISOWeek`: ISO-8601 week number of a day number.  The ISO
week of a date is determined by the Thursday of its (Monday-based) week:
the week number is the ordinal of that Thursday within its calendar year,
divided by 7. -/
def getISOWeekOfDay (d : Int) : Int :=
  let thu := d - weekdayMon0 d + 3
  let y := (civilFromDays thu).1
  let jan1 := daysFromCivil y 1 1
  let doy := thu - jan1 + 1
  Int.fdiv (doy - 1) 7 + 1

/-- JavaScript `String(n).padStart(2, "0")`. -/
def padStart2 (s : String) : String :=
  if s.length = 0 then "00" else if s.length = 1 then "0" ++ s else s

/-- JavaScript `String(n)` for the integers appearing in section ids. -/
def intToString (n : Int) : String :=
  toString n

/-- `date-fns-tz` `format(date, "yyyy-MM-dd")` of a day number. -/
def formatYMD (d : Int) : String :=
  let c := civilFromDays d
  let y := c.1
  let m := c.2.1
  let dd := c.2.2
  let ys := intToString y
  let ys4 := if ys.length = 1 then "000" ++ ys else if ys.length = 2 then "00" ++ ys
             else if ys.length = 3 then "0" ++ ys else ys
  ys4 ++ "-" ++ padStart2 (intToString m) ++ "-" ++ padStart2 (intToString dd)

/-! ## The Date-Window Calculator (`getDateRange`) -/

/-- A reference instant already converted to the Europe/Sofia time zone:
`day` is the Sofia-local day number (days since 1970-01-01) and `hour` the
Sofia-local hour of day. -/
structure SofiaInstant where
  day : Int
  hour : Int
  deriving DecidableEq, Repr

/-- `date-fns` `addDays` (the code only ever adds whole days, which leaves
the local hour unchanged). -/
def addDaysS (d : SofiaInstant) (n : Int) : SofiaInstant :=
  ⟨d.day + n, d.hour⟩

/-- The two section types of the rolling display window. -/
inductive SectionType where
  | SatMon
  | TueFri
  deriving DecidableEq, Repr

/-- The string the code interpolates for each section type. -/
def sectionTypeStr : SectionType → String
  | .SatMon => "SatMon"
  | .TueFri => "TueFri"

/-- Return type of `getDateRange` (`DateRangeInfo` in the source).  The
embedding additionally exposes the code's internal `sectionType` variable,
which the source folds into `sectionId`. -/
structure DateRangeInfo where
  dates : List String
  sectionId : String
  startDate : SofiaInstant
  endDate : SofiaInstant
  sectionType : SectionType
  deriving Repr

/-- Common tail of `getDateRange`: the `dates` loop (`while isBefore ∨
isEqual`, pushing `format(currentDate, "yyyy-MM-dd")` and stepping one day;
`sectionEnd` is `sectionStart` plus 2 or 3 days, so the loop emits the days
from `sectionStart` to `sectionEnd` inclusive) followed by the construction
of the section identifier from `referenceDateForWeek`. -/
def mkDateRangeInfo (sectionStart sectionEnd : SofiaInstant)
    (sectionType : SectionType) (referenceDateForWeek : SofiaInstant) :
    DateRangeInfo :=
  let n := (sectionEnd.day - sectionStart.day).toNat + 1
  let dates := (List.range n).map (fun i => formatYMD (sectionStart.day + i))
  let weekNumber := getISOWeekOfDay referenceDateForWeek.day
  let year := getYearOfDay referenceDateForWeek.day
  let sectionId :=
    intToString year ++ "-W" ++ padStart2 (intToString weekNumber) ++ "-" ++
      sectionTypeStr sectionType
  ⟨dates, sectionId, sectionStart, sectionEnd, sectionType⟩

/-- The window-membership test of `getDateRange`:
`(currentDay === 6 && currentHour >= 10) || currentDay === 0 ||
 currentDay === 1 || (currentDay === 2 && currentHour < 10)`. -/
def isSatMonWindow (currentDay currentHour : Int) : Prop :=
  (currentDay = 6 ∧ currentHour ≥ 10) ∨ currentDay = 0 ∨ currentDay = 1 ∨
    (currentDay = 2 ∧ currentHour < 10)

instance (d h : Int) : Decidable (isSatMonWindow d h) := by
  unfold isSatMonWindow; infer_instance

/-- `getDateRange` from `src/lib/football-api.ts` (final variant): maps a
reference instant (already in Sofia local time) to the rolling 3-or-4-day
window it belongs to and that window's section identifier. -/
def getDateRange (referenceDate : SofiaInstant) : DateRangeInfo :=
  let currentDay := getDayOfWeek referenceDate.day
  let currentHour := referenceDate.hour
  if isSatMonWindow currentDay currentHour then
    let startAndWeek :=
      if currentDay = 6 ∧ currentHour ≥ 10 then (referenceDate, referenceDate)
      else if currentDay = 0 then (addDaysS referenceDate (-1), referenceDate)
      else if currentDay = 1 then (addDaysS referenceDate (-2), referenceDate)
      else (addDaysS referenceDate (-3), addDaysS referenceDate (-3))
    let sectionStart := startAndWeek.1
    let sectionEnd := addDaysS sectionStart 2
    mkDateRangeInfo sectionStart sectionEnd .SatMon startAndWeek.2
  else
    let startAndWeek :=
      if currentDay = 2 ∧ currentHour ≥ 10 then (referenceDate, referenceDate)
      else if currentDay = 3 then (addDaysS referenceDate (-1), referenceDate)
      else if currentDay = 4 then (addDaysS referenceDate (-2), referenceDate)
      else if currentDay = 5 then (addDaysS referenceDate (-3), referenceDate)
      else (addDaysS referenceDate (-4), addDaysS referenceDate (-4))
    let sectionStart := startAndWeek.1
    let sectionEnd := addDaysS sectionStart 3
    mkDateRangeInfo sectionStart sectionEnd .TueFri startAndWeek.2

/-- `String.prototype.endsWith`. -/
def strEndsWith (s suffix : String) : Bool :=
  List.isSuffixOf suffix.data s.data

/-! ### Structure of the section identifier -/

/-- The section id always decomposes as `prefix ++ "-" ++ type`. -/
theorem sectionId_eq (d : SofiaInstant) :
    ∃ b, (getDateRange d).sectionId = b ++ "-" ++ sectionTypeStr (getDateRange d).sectionType := by
  unfold getDateRange
  by_cases h : isSatMonWindow (getDayOfWeek d.day) d.hour <;>
    simp only [h, if_true, if_false, reduceIte, mkDateRangeInfo] <;>
    exact ⟨_, rfl⟩

theorem append_dash_satMon (b : String) : b ++ "-" ++ "SatMon" = b ++ "-SatMon" := by
  rw [String.append_assoc]; rfl

theorem append_dash_tueFri (b : String) : b ++ "-" ++ "TueFri" = b ++ "-TueFri" := by
  rw [String.append_assoc]; rfl

/-- `endsWith "-SatMon"` on a string of the form `b ++ "-" ++ <type>` holds
exactly for the `SatMon` type: the reconciler's `endsWith` test recovers the
section type from the identifier. -/
theorem strEndsWith_sectionTypeStr (b : String) (ty : SectionType) :
    strEndsWith (b ++ "-" ++ sectionTypeStr ty) "-SatMon" = (ty == SectionType.SatMon) := by
  cases ty
  · -- SatMon: the suffix is present by construction
    simp only [sectionTypeStr, strEndsWith, List.isSuffixOf_iff_suffix, beq_self_eq_true,
      decide_eq_true_eq]
    refine ⟨b.data, ?_⟩
    rw [append_dash_satMon, String.data_append]
  · -- TueFri: the last character is 'i', not 'n'
    simp only [sectionTypeStr, strEndsWith]
    rw [show (SectionType.TueFri == SectionType.SatMon) = false from rfl]
    refine Bool.eq_false_iff.2 ?_
    intro htrue
    rw [List.isSuffixOf_iff_suffix] at htrue
    obtain ⟨t, ht⟩ := htrue
    have hlast : (t ++ ("-SatMon" : String).data).getLast? = some 'n' := by
      rw [List.getLast?_append]; rfl
    rw [ht] at hlast
    rw [append_dash_tueFri, String.data_append] at hlast
    rw [List.getLast?_append] at hlast
    simp at hlast

/-- The section type returned by `getDateRange` is `SatMon` exactly on the
window condition tested by the code. -/
theorem getDateRange_sectionType (d : SofiaInstant) :
    (getDateRange d).sectionType =
      if isSatMonWindow (getDayOfWeek d.day) d.hour then .SatMon else .TueFri := by
  unfold getDateRange
  by_cases h : isSatMonWindow (getDayOfWeek d.day) d.hour <;>
    simp [h, mkDateRangeInfo]

/-- **C5** (confirmed).  For every reference instant whose Sofia-local
weekday and hour lie in the half-open interval [Saturday 10:00, Tuesday
10:00) — i.e. weekday/hour in {Sat ≥ 10:00, Sun, Mon, Tue < 10:00}, which is
the predicate `isSatMonWindow` — `getDateRange` returns a `sectionId` ending
in `"-SatMon"`; for every other instant it returns a `sectionId` ending in
`"-TueFri"`. -/
theorem getDateRange_sectionId_suffix (d : SofiaInstant) :
    (isSatMonWindow (getDayOfWeek d.day) d.hour →
      ∃ p, (getDateRange d).sectionId = p ++ "-SatMon") ∧
    (¬ isSatMonWindow (getDayOfWeek d.day) d.hour →
      ∃ p, (getDateRange d).sectionId = p ++ "-TueFri") := by
  obtain ⟨b, hb⟩ := sectionId_eq d
  constructor
  · intro h
    refine ⟨b, ?_⟩
    rw [hb, getDateRange_sectionType d, if_pos h]
    exact append_dash_satMon b
  · intro h
    refine ⟨b, ?_⟩
    rw [hb, getDateRange_sectionType d, if_neg h]
    exact append_dash_tueFri b

/-- Witness for C5: a Saturday 10:00 instant (day number 20099 =
2025-01-11, a Saturday) yields a `-SatMon` id and a Tuesday 10:00 instant
(20102 = 2025-01-14) yields a `-TueFri` id. -/
theorem getDateRange_sectionId_suffix_witness :
    (∃ p, (getDateRange ⟨20099, 10⟩).sectionId = p ++ "-SatMon") ∧
    (∃ p, (getDateRange ⟨20102, 10⟩).sectionId = p ++ "-TueFri") :=
  ⟨(getDateRange_sectionId_suffix ⟨20099, 10⟩).1 (by decide),
   (getDateRange_sectionId_suffix ⟨20102, 10⟩).2 (by decide)⟩

/-- **C1** (refuted on the code: the code is the slip, the spec the intent).
The claim says the section identifier always embeds the ISO week and year of
the window's *anchor day*, so that any two instants of the same window get
the same `sectionId`.  The code only substitutes the anchor for the
reference date in the two wrap-around cases (Tuesday before 10:00, Saturday
before 10:00); for a Monday reference it keeps the Monday itself, whose ISO
week is the *next* week (ISO weeks start on Monday).  Concretely: Saturday
2025-01-11 10:00 (day 20099) and Monday 2025-01-13 12:00 (day 20101) lie in
the same SatMon window anchored at Saturday 2025-01-11 (ISO week 2), yet the
code returns `"2025-W02-SatMon"` for the former and `"2025-W03-SatMon"` for
the latter. -/
theorem getDateRange_monday_breaks_anchor_week :
    getDayOfWeek 20099 = 6 ∧ getDayOfWeek 20101 = 1 ∧
    (getDateRange ⟨20099, 10⟩).startDate.day = 20099 ∧
    (getDateRange ⟨20101, 12⟩).startDate.day = 20099 ∧
    (getDateRange ⟨20099, 10⟩).sectionType = .SatMon ∧
    (getDateRange ⟨20101, 12⟩).sectionType = .SatMon ∧
    getISOWeekOfDay 20099 = 2 ∧
    (getDateRange ⟨20099, 10⟩).sectionId = "2025-W02-SatMon" ∧
    (getDateRange ⟨20101, 12⟩).sectionId = "2025-W03-SatMon" := by
  decide

/-! ## The Forecast Evaluator

`getForecast`, `isForecastCorrect` and `determineActualOutcome` from
`src/app/api/cron/update-football-scores/route.ts` (the identical copies in
`update-live-scores` and `update-section-data` differ only in formatting).
A JavaScript `number | null` score component is an `Option Int`; the
`typeof x !== "number"` guards are the `none` cases.  The JS `switch` on the
forecast string is an if-chain on string equality. -/

/-- A final score: `{ home: number | null; away: number | null }`. -/
structure GoalsScore where
  home : Option Int
  away : Option Int
  deriving DecidableEq, Repr

/-- One entry of the static `rowForecastMap` table. -/
structure RowForecast where
  rowNumber : Int
  forecast : String
  deriving Repr

/-- `getForecast`: look up the canned forecast label for a row number in the
(static) `rowForecastMap`.  The table itself is not in the sources, so the
embedding takes it as a parameter. -/
def getForecast (rowForecastMap : List RowForecast) (rowNumber : Int) : Option String :=
  match rowForecastMap.find? (fun item => item.rowNumber == rowNumber) with
  | some item => some item.forecast
  | none => none

/-- `isForecastCorrect` from the cron routes. -/
def isForecastCorrect (score : GoalsScore) (forecast : String) : Bool :=
  match score.home, score.away with
  | some home, some away =>
    let homeWin : Bool := home > away
    let awayWin : Bool := home < away
    let draw : Bool := home = away
    if forecast = "1/X" then homeWin || draw
    else if forecast = "1/2" then homeWin || awayWin
    else if forecast = "X/2" then draw || awayWin
    else false
  | _, _ => false

/-- `determineActualOutcome` from the cron routes. -/
def determineActualOutcome (score : GoalsScore) : Option String :=
  match score.home, score.away with
  | some home, some away =>
    if home > away then some "1"
    else if home < away then some "2"
    else some "X"
  | _, _ => none

/-- **C8** (confirmed).  For every numeric final score,
`isForecastCorrect(score, "1/X")` holds iff home ≥ away,
`isForecastCorrect(score, "1/2")` iff home ≠ away, and
`isForecastCorrect(score, "X/2")` iff home ≤ away. -/
theorem isForecastCorrect_characterization (home away : Int) :
    (isForecastCorrect ⟨some home, some away⟩ "1/X" = true ↔ home ≥ away) ∧
    (isForecastCorrect ⟨some home, some away⟩ "1/2" = true ↔ home ≠ away) ∧
    (isForecastCorrect ⟨some home, some away⟩ "X/2" = true ↔ home ≤ away) := by
  refine ⟨?_, ?_, ?_⟩ <;>
    · simp only [isForecastCorrect, String.reduceEq, reduceIte, Bool.or_eq_true,
        decide_eq_true_eq]
      omega

/-- **C9** (confirmed).  `determineActualOutcome` returns `null` whenever
either score component is not a number, and on numeric scores returns `"1"`
iff home > away, `"2"` iff home < away, and `"X"` iff home = away. -/
theorem determineActualOutcome_characterization :
    (∀ s : GoalsScore, s.home = none ∨ s.away = none → determineActualOutcome s = none) ∧
    (∀ home away : Int,
      (determineActualOutcome ⟨some home, some away⟩ = some "1" ↔ home > away) ∧
      (determineActualOutcome ⟨some home, some away⟩ = some "2" ↔ home < away) ∧
      (determineActualOutcome ⟨some home, some away⟩ = some "X" ↔ home = away)) := by
  constructor
  · rintro ⟨sh, sa⟩ (h | h) <;> simp only at h <;> subst h
    · cases sa <;> rfl
    · cases sh <;> rfl
  · intro home away
    rcases lt_trichotomy home away with h | h | h
    · have e : determineActualOutcome ⟨some home, some away⟩ = some "2" := by
        simp only [determineActualOutcome]
        rw [if_neg (by omega), if_pos (by omega)]
      exact ⟨by rw [e]; exact iff_of_false (by simp) (by omega),
             by rw [e]; exact iff_of_true rfl h,
             by rw [e]; exact iff_of_false (by simp) (by omega)⟩
    · have e : determineActualOutcome ⟨some home, some away⟩ = some "X" := by
        simp only [determineActualOutcome]
        rw [if_neg (by omega), if_neg (by omega)]
      exact ⟨by rw [e]; exact iff_of_false (by simp) (by omega),
             by rw [e]; exact iff_of_false (by simp) (by omega),
             by rw [e]; exact iff_of_true rfl h⟩
    · have e : determineActualOutcome ⟨some home, some away⟩ = some "1" := by
        simp only [determineActualOutcome]
        rw [if_pos (by omega)]
      exact ⟨by rw [e]; exact iff_of_true rfl h,
             by rw [e]; exact iff_of_false (by simp) (by omega),
             by rw [e]; exact iff_of_false (by simp) (by omega)⟩

/-- Witness for C9: a score with a missing home component evaluates to
`none`, and `2:2` evaluates to `"X"`. -/
theorem determineActualOutcome_characterization_witness :
    determineActualOutcome ⟨none, some 3⟩ = none ∧
    determineActualOutcome ⟨some 2, some 2⟩ = some "X" :=
  ⟨determineActualOutcome_characterization.1 ⟨none, some 3⟩ (Or.inl rfl),
   ((determineActualOutcome_characterization.2 2 2).2.2).2 rfl⟩

/-- **C10** (confirmed).  `isForecastCorrect` is total with result type
`Bool` (it never returns null and never throws — totality is enforced by the
Lean embedding's type): whenever either score component is not a number it
returns `false` for every label, and for every label outside
{"1/X", "1/2", "X/2"} it returns `false` for every score, so a not-evaluable
match is indistinguishable from an incorrect forecast at this interface. -/
theorem isForecastCorrect_total (score : GoalsScore) (forecast : String) :
    ((score.home = none ∨ score.away = none) → isForecastCorrect score forecast = false) ∧
    ((forecast ≠ "1/X" ∧ forecast ≠ "1/2" ∧ forecast ≠ "X/2") →
      isForecastCorrect score forecast = false) := by
  obtain ⟨sh, sa⟩ := score
  constructor
  · rintro (h | h) <;> simp only at h <;> subst h
    · cases sa <;> rfl
    · cases sh <;> rfl
  · rintro ⟨h1, h2, h3⟩
    cases sh with
    | none => cases sa <;> rfl
    | some home =>
      cases sa with
      | none => rfl
      | some away =>
        simp only [isForecastCorrect]
        rw [if_neg h1, if_neg h2, if_neg h3]

/-- Witness for C10: a missing component and an unknown label both yield
`false`. -/
theorem isForecastCorrect_total_witness :
    isForecastCorrect ⟨none, some 1⟩ "1/X" = false ∧
    isForecastCorrect ⟨some 3, some 0⟩ "2/X" = false :=
  ⟨(isForecastCorrect_total ⟨none, some 1⟩ "1/X").1 (Or.inl rfl),
   (isForecastCorrect_total ⟨some 3, some 0⟩ "2/X").2
     ⟨by decide, by decide, by decide⟩⟩

/-! ## The paginated fetch client (`fetchAllPages`)

`fetchAllPages` is modelled over an *upstream oracle* `pages : Nat →
PageOutcome R` giving, for each page number, what the upstream returns:
a non-2xx HTTP response (`httpError`), a 2xx response whose body fails
`res.json()` (`parseError`), or a parsed envelope (`ok response
paging.total`; both fields are optional, mirroring `if (data.response)` and
`paging?.total ?? 1`).  The model returns both the accumulated records and
the list of page numbers actually fetched (each `await fetch(...)` in the
loop), so that "the remaining pages still proceed" is observable. -/

/-- Outcome of fetching one page from the upstream. -/
inductive PageOutcome (R : Type) where
  | httpError
  | parseError
  | ok (response : Option (List R)) (pagingTotal : Option Nat)
  deriving DecidableEq, Repr

/-- Records contributed by one page: a failed page (or a page with no
`response` field) contributes nothing. -/
def pageContribution {R : Type} (p : PageOutcome R) : List R :=
  match p with
  | .ok r _ => r.getD []
  | _ => []

/-- Body of the `for (currentPage = 2; ...)` loop of `fetchAllPages`:
a non-OK page `continue`s, a parse failure is caught and skipped, an OK page
concatenates its `response` array (if present). -/
def pageStep {R : Type} (pages : Nat → PageOutcome R) (acc : List R) (p : Nat) : List R :=
  match pages p with
  | .httpError => acc
  | .parseError => acc
  | .ok r _ => acc ++ r.getD []

/-- `fetchAllPages` from `src/lib/football-api.ts`: fetch page 1; on a
non-2xx response return `[]`; on a parse failure of the initial body return
the (still empty) accumulator; otherwise read `paging.total` and fetch pages
`2 .. totalPages`, skipping failed pages.  Returns the accumulated records
and the fetched page numbers. -/
def fetchAllPages {R : Type} (pages : Nat → PageOutcome R) : List R × List Nat :=
  match pages 1 with
  | .httpError => ([], [1])
  | .parseError => ([], [1])
  | .ok resp total =>
    let allResponses := resp.getD []
    let totalPages := total.getD 1
    let rest := List.range' 2 (totalPages - 1)
    (rest.foldl (pageStep pages) allResponses, 1 :: rest)

/-- The per-date fan-out of `fetchFootballScores`
(`dateRangeInfo.dates.map((date) => fetchAllPages(...))` under
`Promise.all`): each date's request is an independent `fetchAllPages` run
against that date's upstream oracle. -/
def fetchPagesForDates {R : Type} (oracles : String → Nat → PageOutcome R)
    (dates : List String) : List (List R × List Nat) :=
  dates.map (fun d => fetchAllPages (oracles d))

theorem foldl_pageStep {R : Type} (pages : Nat → PageOutcome R) (l : List Nat)
    (acc : List R) :
    l.foldl (pageStep pages) acc = acc ++ (l.map (fun p => pageContribution (pages p))).flatten := by
  induction l generalizing acc with
  | nil => simp
  | cons hd tl ih =>
    rw [List.foldl_cons, ih]
    cases h : pages hd <;>
      simp [pageStep, pageContribution, h, List.append_assoc]

/-- A first-page failure: the oracle behind the C3 counterexample.  Page 1
answers non-2xx; page 2 would parse fine and carry a record. -/
def c3FirstPageFails : Nat → PageOutcome Nat :=
  fun p => if p = 1 then .httpError else .ok (some [42]) (some 2)

/-- **C3 counterexample** (the claim as stated is false).  The claim says a
failed page "contributes an empty result, and the fetching of the remaining
pages of the same request … still proceeds; this holds for every page,
including the first page of a request."  With a non-2xx *first* page the
code returns `[]` immediately: page 2 — which would have parsed and carried
a record — is never fetched, so the remaining pages of the request do not
proceed. -/
theorem fetchAllPages_first_page_aborts :
    fetchAllPages c3FirstPageFails = ([], [1]) ∧
    c3FirstPageFails 2 = .ok (some [42]) (some 2) ∧
    2 ∉ (fetchAllPages c3FirstPageFails).2 := by
  refine ⟨rfl, rfl, ?_⟩
  decide

/-- **C3 amended** (proved).  For a *continuation* page (page ≥ 2) the claim
holds: every page `2 .. paging.total` reported by a successful first page is
fetched no matter which of them fail, and each failed (or `response`-less)
page contributes the empty list while the others' records are kept in
order.  A failed *first* page (non-2xx or unparsable body) instead makes the
whole request contribute `[]` without fetching any continuation page.  The
per-date requests are independent: each date's entry of the fan-out equals a
standalone `fetchAllPages` run of that date's oracle, so failures inside one
date never affect another date's result. -/
theorem fetchAllPages_failure_tolerance {R : Type} (pages : Nat → PageOutcome R) :
    ((pages 1 = .httpError ∨ pages 1 = .parseError) →
      fetchAllPages pages = ([], [1])) ∧
    (∀ resp total, pages 1 = .ok resp total →
      (fetchAllPages pages).2 = 1 :: List.range' 2 (total.getD 1 - 1) ∧
      (fetchAllPages pages).1 =
        resp.getD [] ++
          ((List.range' 2 (total.getD 1 - 1)).map
            (fun p => pageContribution (pages p))).flatten) ∧
    (∀ (oracles : String → Nat → PageOutcome R) (dates : List String),
      List.Forall₂ (fun d r => r = fetchAllPages (oracles d)) dates
        (fetchPagesForDates oracles dates)) := by
  refine ⟨?_, ?_, ?_⟩
  · rintro (h | h) <;> simp [fetchAllPages, h]
  · intro resp total h
    simp only [fetchAllPages, h]
    exact ⟨trivial, foldl_pageStep pages _ _⟩
  · intro oracles dates
    induction dates with
    | nil => exact List.Forall₂.nil
    | cons d tl ih => exact List.Forall₂.cons rfl ih

/-- A mid-request failure: page 1 reports 3 pages, page 2 fails to parse,
page 3 succeeds. -/
def c3MidPageFails : Nat → PageOutcome Nat :=
  fun p => if p = 1 then .ok (some [10]) (some 3)
           else if p = 2 then .parseError
           else .ok (some [30]) (some 1)

/-- Witness for the amended C3: under `c3MidPageFails` all of pages 1, 2, 3
are fetched and the result keeps pages 1 and 3's records; under
`c3FirstPageFails` the request contributes `([], [1])`. -/
theorem fetchAllPages_failure_tolerance_witness :
    fetchAllPages c3FirstPageFails = ([], [1]) ∧
    (fetchAllPages c3MidPageFails).2 = 1 :: List.range' 2 2 ∧
    (fetchAllPages c3MidPageFails).1 =
      [10] ++ ((List.range' 2 2).map
        (fun p => pageContribution (c3MidPageFails p))).flatten :=
  ⟨(fetchAllPages_failure_tolerance c3FirstPageFails).1 (Or.inl rfl),
   ((fetchAllPages_failure_tolerance c3MidPageFails).2.1 (some [10]) (some 3) rfl).1,
   ((fetchAllPages_failure_tolerance c3MidPageFails).2.1 (some [10]) (some 3) rfl).2⟩

/-! ## The Score Assembler

Steps 3–4 of `fetchFootballScores`: join each fixture with its odds from
the per-fixture odds map (dropping fixtures without a complete triple),
sort ascending by kickoff instant with JavaScript's stable `Array.sort`,
then assign 1-based row numbers with the final `forEach`.  The kickoff
`fixture.date` is carried as the instant (`parseISO(s).getTime()`
milliseconds) the comparator uses; `Odds` has three non-null fields, so an
entry in the odds map is exactly a complete home/draw/away triple (step 3
only inserts when all three odds are present).  JavaScript's `Array.sort`
is required to be stable, which `List.mergeSort` is. -/

/-- A team descriptor of a fixture. -/
structure TeamInfo where
  id : Int
  name : String
  logo : String
  winner : Option Bool
  deriving DecidableEq, Repr

/-- A league descriptor of a fixture. -/
structure LeagueInfo where
  id : Int
  name : String
  country : String
  logo : String
  flag : String
  season : Int
  round : String
  deriving DecidableEq, Repr

/-- A fixture status. -/
structure MatchStatus where
  long : String
  short : String
  elapsed : Option Int
  deriving DecidableEq, Repr

/-- A complete odds triple (the odds map only ever stores complete
triples). -/
structure Odds where
  home : String
  draw : String
  away : String
  deriving DecidableEq, Repr

/-- An `ApiFixture` that survived league filtering, with the `day` label
added (`allFixturesWithDay` in the source).  `date` is the kickoff
instant. -/
structure ApiFixtureDay where
  fixtureId : Int
  date : Int
  status : MatchStatus
  league : LeagueInfo
  home : TeamInfo
  away : TeamInfo
  goals : GoalsScore
  day : String
  deriving DecidableEq, Repr

/-- The application-level `FootballScore` row
(`src/types/football-scores.ts`, plus the `odds` field the pipeline
attaches). -/
structure FootballScore where
  day : String
  rowNumber : Nat
  fixtureId : Int
  startTime : Int
  status : MatchStatus
  home : TeamInfo
  away : TeamInfo
  score : GoalsScore
  league : LeagueInfo
  odds : Odds
  deriving DecidableEq, Repr

/-- The object built in the `.map` of step 4 (with the `rowNumber: 0`
placeholder). -/
def toFootballScore (fixture : ApiFixtureDay) (fixtureOdds : Odds) : FootballScore :=
  { day := fixture.day
    rowNumber := 0
    fixtureId := fixture.fixtureId
    startTime := fixture.date
    status := fixture.status
    home := fixture.home
    away := fixture.away
    score := fixture.goals
    league := fixture.league
    odds := fixtureOdds }

/-- The sort comparator `(a, b) => parseISO(a.startTime).getTime() -
parseISO(b.startTime).getTime()` as a `≤`-test on the kickoff instants. -/
def scoreLE (a b : FootballScore) : Bool :=
  a.startTime ≤ b.startTime

/-- The final `combinedScores.forEach((score, index) => { score.rowNumber =
index + 1 })`, started at 1. -/
def assignRowNumbers : Nat → List FootballScore → List FootballScore
  | _, [] => []
  | n, s :: rest => { s with rowNumber := n } :: assignRowNumbers (n + 1) rest

/-- The body of the `.map` of step 4: look up the odds for a fixture and
return `null` (dropping the fixture) when absent. -/
def joinScore (oddsMap : Int → Option Odds) (fixture : ApiFixtureDay) :
    Option FootballScore :=
  match oddsMap fixture.fixtureId with
  | none => none
  | some fixtureOdds => some (toFootballScore fixture fixtureOdds)

/-- Steps 3–4 of `fetchFootballScores`: join (dropping odds-less fixtures),
stable sort by kickoff, assign row numbers.  The source maps to
`FootballScore | null` and filters out `null`, which is `filterMap`. -/
def combineScores (fixtures : List ApiFixtureDay) (oddsMap : Int → Option Odds) :
    List FootballScore :=
  let combined := fixtures.filterMap (joinScore oddsMap)
  let sorted := combined.mergeSort scoreLE
  assignRowNumbers 1 sorted

/-! ### Assembler lemmas -/

theorem scoreLE_trans (a b c : FootballScore) :
    scoreLE a b → scoreLE b c → scoreLE a c := by
  simp only [scoreLE, decide_eq_true_eq]
  omega

theorem scoreLE_total (a b : FootballScore) : scoreLE a b || scoreLE b a := by
  simp only [scoreLE, Bool.or_eq_true, decide_eq_true_eq]
  omega

theorem assignRowNumbers_map_rowNumber (n : Nat) (l : List FootballScore) :
    (assignRowNumbers n l).map (fun s => s.rowNumber) = List.range' n l.length := by
  induction l generalizing n with
  | nil => rfl
  | cons s rest ih => simp [assignRowNumbers, List.range'_succ, ih]

theorem assignRowNumbers_length (n : Nat) (l : List FootballScore) :
    (assignRowNumbers n l).length = l.length := by
  induction l generalizing n with
  | nil => rfl
  | cons s rest ih => simp [assignRowNumbers, ih]

theorem mem_assignRowNumbers (b : FootballScore) (n : Nat) (l : List FootballScore) :
    b ∈ assignRowNumbers n l →
      ∃ a ∈ l, b.startTime = a.startTime ∧ b.fixtureId = a.fixtureId := by
  induction l generalizing n with
  | nil => intro h; simp [assignRowNumbers] at h
  | cons s rest ih =>
    intro h
    rcases List.mem_cons.1 h with h | h
    · exact ⟨s, List.mem_cons_self s rest, by subst h; exact ⟨rfl, rfl⟩⟩
    · obtain ⟨a, ha, h1, h2⟩ := ih (n + 1) h
      exact ⟨a, List.mem_cons_of_mem _ ha, h1, h2⟩

theorem assignRowNumbers_mem_of_mem (a : FootballScore) (n : Nat)
    (l : List FootballScore) :
    a ∈ l → ∃ b ∈ assignRowNumbers n l,
      b.startTime = a.startTime ∧ b.fixtureId = a.fixtureId := by
  induction l generalizing n with
  | nil => intro h; simp at h
  | cons s rest ih =>
    intro h
    rcases List.mem_cons.1 h with h | h
    · subst h
      exact ⟨{ a with rowNumber := n }, List.mem_cons_self _ _, rfl, rfl⟩
    · obtain ⟨b, hb, h1, h2⟩ := ih (n + 1) h
      exact ⟨b, List.mem_cons_of_mem _ hb, h1, h2⟩

theorem assignRowNumbers_pairwise (n : Nat) (l : List FootballScore)
    (h : l.Pairwise (fun a b => a.startTime ≤ b.startTime)) :
    (assignRowNumbers n l).Pairwise (fun a b => a.startTime ≤ b.startTime) := by
  induction l generalizing n with
  | nil => exact List.Pairwise.nil
  | cons s rest ih =>
    obtain ⟨h1, h2⟩ := List.pairwise_cons.1 h
    refine List.pairwise_cons.2 ⟨?_, ih (n + 1) h2⟩
    intro b hb
    obtain ⟨a, ha, hst, _⟩ := mem_assignRowNumbers b (n + 1) rest hb
    show s.startTime ≤ b.startTime
    rw [hst]
    exact h1 a ha

theorem assignRowNumbers_filter_map_fixtureId (n : Nat) (t : Int)
    (l : List FootballScore) :
    ((assignRowNumbers n l).filter (fun s => s.startTime == t)).map (fun s => s.fixtureId)
      = (l.filter (fun s => s.startTime == t)).map (fun s => s.fixtureId) := by
  induction l generalizing n with
  | nil => rfl
  | cons s rest ih =>
    show ((({ s with rowNumber := n } : FootballScore) :: _).filter _).map _ = _
    rw [List.filter_cons, List.filter_cons]
    cases hc : (s.startTime == t) with
    | true =>
      simp only [show (({ s with rowNumber := n } : FootballScore).startTime == t) = true
          from hc, if_pos, List.map_cons, ih]
    | false =>
      simp only [show (({ s with rowNumber := n } : FootballScore).startTime == t) = false
          from hc, if_neg, Bool.false_eq_true, reduceIte, ih]

/-- Stability of the kickoff sort: for each kickoff instant, the sorted
list keeps the tied rows in their original relative order. -/
theorem mergeSort_filter_key (l : List FootballScore) (t : Int) :
    (l.mergeSort scoreLE).filter (fun s => s.startTime == t)
      = l.filter (fun s => s.startTime == t) := by
  have hperm : List.Perm
      ((l.mergeSort scoreLE).filter (fun s => s.startTime == t))
      (l.filter (fun s => s.startTime == t)) :=
    (List.mergeSort_perm l scoreLE).filter _
  have hpair : (l.filter (fun s => s.startTime == t)).Pairwise
      (fun a b => scoreLE a b = true) := by
    refine List.pairwise_of_forall_mem_list ?_
    intro a ha b hb
    have ha' := List.of_mem_filter ha
    have hb' := List.of_mem_filter hb
    simp only [beq_iff_eq] at ha' hb'
    simp [scoreLE, ha', hb']
  have hsub : List.Sublist (l.filter (fun s => s.startTime == t))
      (l.mergeSort scoreLE) :=
    List.sublist_mergeSort scoreLE_trans scoreLE_total hpair (List.filter_sublist l)
  have hsub2 : List.Sublist (l.filter (fun s => s.startTime == t))
      ((l.mergeSort scoreLE).filter (fun s => s.startTime == t)) := by
    have h2 := hsub.filter (fun s => s.startTime == t)
    rw [List.filter_filter] at h2
    simpa only [Bool.and_self] using h2
  exact (hsub2.eq_of_length hperm.length_eq.symm).symm

/-- The joined-but-unsorted list, projected to fixture ids and filtered by
kickoff instant, is the odds-having input in input order. -/
theorem filterMap_joinScore_filter_map (fixtures : List ApiFixtureDay)
    (oddsMap : Int → Option Odds) (t : Int) :
    ((fixtures.filterMap (joinScore oddsMap)).filter
        (fun s => s.startTime == t)).map (fun s => s.fixtureId)
      = ((fixtures.filter (fun f => (oddsMap f.fixtureId).isSome)).filter
          (fun f => f.date == t)).map (fun f => f.fixtureId) := by
  induction fixtures with
  | nil => rfl
  | cons f rest ih =>
    cases ho : oddsMap f.fixtureId with
    | none =>
      have hj : joinScore oddsMap f = none := by simp [joinScore, ho]
      simp only [hj, List.filterMap_cons, List.filter_cons, ho, Option.isSome_none,
        Bool.false_eq_true, reduceIte, ih]
    | some o =>
      have hj : joinScore oddsMap f = some (toFootballScore f o) := by
        simp [joinScore, ho]
      cases hc : (f.date == t) with
      | true =>
        have hc' : ((toFootballScore f o).startTime == t) = true := hc
        simp only [hj, List.filterMap_cons, List.filter_cons, ho, Option.isSome_some,
          hc, hc', reduceIte, List.map_cons, ih]
        rfl
      | false =>
        have hc' : ((toFootballScore f o).startTime == t) = false := hc
        simp only [hj, List.filterMap_cons, List.filter_cons, ho, Option.isSome_some,
          hc, hc', Bool.false_eq_true, reduceIte, List.map_cons, ih]

/-- **C4** (confirmed).  For every fixture list and odds map, the assembly
step emits exactly the fixtures whose id has a complete odds triple (an
entry in the odds map), sorted ascending by kickoff instant with ties in
original relative order (per kickoff instant, the emitted ids equal the
odds-having input ids in input order), and assigns row numbers `1..N`. -/
theorem combineScores_spec (fixtures : List ApiFixtureDay)
    (oddsMap : Int → Option Odds) :
    (∀ id, (∃ s ∈ combineScores fixtures oddsMap, s.fixtureId = id) ↔
       (∃ f ∈ fixtures, f.fixtureId = id ∧ (oddsMap id).isSome = true)) ∧
    (combineScores fixtures oddsMap).Pairwise
      (fun a b => a.startTime ≤ b.startTime) ∧
    (∀ t, ((combineScores fixtures oddsMap).filter
            (fun s => s.startTime == t)).map (fun s => s.fixtureId)
        = ((fixtures.filter (fun f => (oddsMap f.fixtureId).isSome)).filter
            (fun f => f.date == t)).map (fun f => f.fixtureId)) ∧
    (combineScores fixtures oddsMap).map (fun s => s.rowNumber)
        = List.range' 1 (combineScores fixtures oddsMap).length := by
  have e1 : combineScores fixtures oddsMap
      = assignRowNumbers 1 ((fixtures.filterMap (joinScore oddsMap)).mergeSort scoreLE) :=
    rfl
  refine ⟨?_, ?_, ?_, ?_⟩
  · intro id
    constructor
    · rintro ⟨s, hs, rfl⟩
      rw [e1] at hs
      obtain ⟨a, ha, hst, hfid⟩ := mem_assignRowNumbers _ _ _ hs
      have ha' : a ∈ fixtures.filterMap (joinScore oddsMap) :=
        List.mem_mergeSort.1 ha
      obtain ⟨f, hf, hjoin⟩ := List.mem_filterMap.1 ha'
      cases ho : oddsMap f.fixtureId with
      | none => simp [joinScore, ho] at hjoin
      | some o =>
        have haeq : a = toFootballScore f o := by
          simp only [joinScore, ho, Option.some.injEq] at hjoin
          exact hjoin.symm
        subst haeq
        refine ⟨f, hf, hfid.symm, ?_⟩
        rw [show s.fixtureId = f.fixtureId from hfid, ho]
        rfl
    · rintro ⟨f, hf, hfid, hsome⟩
      subst hfid
      obtain ⟨o, ho⟩ := Option.isSome_iff_exists.1 hsome
      have hcomb : toFootballScore f o ∈ fixtures.filterMap (joinScore oddsMap) :=
        List.mem_filterMap.2 ⟨f, hf, by simp [joinScore, ho]⟩
      have hsort : toFootballScore f o
          ∈ (fixtures.filterMap (joinScore oddsMap)).mergeSort scoreLE :=
        List.mem_mergeSort.2 hcomb
      obtain ⟨b, hb, hbst, hbfid⟩ := assignRowNumbers_mem_of_mem _ 1 _ hsort
      rw [← e1] at hb
      exact ⟨b, hb, hbfid⟩
  · rw [e1]
    refine assignRowNumbers_pairwise 1 _ ?_
    have hs := List.sorted_mergeSort scoreLE_trans scoreLE_total
      (fixtures.filterMap (joinScore oddsMap))
    exact hs.imp (by intro a b h; simpa [scoreLE] using h)
  · intro t
    rw [e1, assignRowNumbers_filter_map_fixtureId, mergeSort_filter_key,
      filterMap_joinScore_filter_map]
  · rw [e1, assignRowNumbers_map_rowNumber, assignRowNumbers_length]

/-! ## The Persistence Reconciler

The base-data cron (`src/app/api/cron/update-section-data/route.ts`, the
variant that owns the forecast-history write): inside one database
transaction it (a) upserts every batch row into the `footballScores` cache
table keyed by `fixtureId`, (b) for every row whose status transitions to
`FT` relative to the pre-transaction snapshot, computes the section of the
fixture's *kickoff* with `getDateRange(new Date(startTime))` and — only when
that section id ends in `-SatMon` and a forecast label and numeric scores
exist — upserts a `forecastHistory` row keyed by
`(fixtureId, weekSectionId)`, (c) deletes every pre-existing row whose id is
absent from the batch, and (d) updates the `apiCache` marker.

The per-row loop writes to `footballScores` and `forecastHistory` only, and
its `justFinished` test reads only the snapshot taken before the loop
(`existingScoresMap`), so the loop is equivalently the score-upsert fold
followed by the history-write fold; `applyOps_flatMap_rowOps` below proves
this split equal to the op-by-op interleaved execution. -/

/-- A row of the assembled batch as the reconciler sees it: the
`FootballScore` data with the kickoff instant carried as the Sofia-local
day/hour pair that `getDateRange(new Date(startTime))` consumes. -/
structure BatchRow where
  fixtureId : Int
  rowNumber : Int
  day : String
  startTime : SofiaInstant
  status : MatchStatus
  home : TeamInfo
  away : TeamInfo
  score : GoalsScore
  league : LeagueInfo
  odds : Odds
  deriving DecidableEq, Repr

/-- A persisted `footballScores` row: the batch data plus `lastUpdated`. -/
structure StoredScoreRow where
  row : BatchRow
  lastUpdated : Int
  deriving DecidableEq, Repr

/-- A `forecastHistory` row (unique on `(fixtureId, weekSectionId)`). -/
structure ForecastHistoryRow where
  fixtureId : Int
  rowNumber : Int
  weekSectionId : String
  forecast : String
  isCorrect : Bool
  actualOutcome : Option String
  deriving DecidableEq, Repr

/-- The database state touched by the reconciliation pass. -/
structure Db where
  footballScores : List StoredScoreRow
  forecastHistory : List ForecastHistoryRow
  apiCache : List (String × Int)
  deriving DecidableEq, Repr

/-- `insert … onConflictDoUpdate` on `footballScores` (unique on
`fixtureId`; the conflict `set` clause rewrites every mutable field, i.e.
the whole row plus `lastUpdated`). -/
def upsertScoreRow (rows : List StoredScoreRow) (r : BatchRow) (now : Int) :
    List StoredScoreRow :=
  if rows.any (fun x => x.row.fixtureId == r.fixtureId) then
    rows.map (fun x => if x.row.fixtureId == r.fixtureId then
      { row := r, lastUpdated := now } else x)
  else rows ++ [{ row := r, lastUpdated := now }]

/-- `insert … onConflictDoUpdate` on `forecastHistory` (unique on
`(fixtureId, weekSectionId)`; the conflict `set` clause rewrites all
non-key fields). -/
def upsertHistoryRow (rows : List ForecastHistoryRow) (r : ForecastHistoryRow) :
    List ForecastHistoryRow :=
  if rows.any (fun x => x.fixtureId == r.fixtureId && x.weekSectionId == r.weekSectionId) then
    rows.map (fun x => if x.fixtureId == r.fixtureId && x.weekSectionId == r.weekSectionId then
      r else x)
  else rows ++ [r]

/-- The `apiCache` update: the route updates the row if the pre-read
`cacheEntry` existed, else inserts it. -/
def upsertCache (cache : List (String × Int)) (key : String) (now : Int) :
    List (String × Int) :=
  if cache.any (fun e => e.1 == key) then
    cache.map (fun e => if e.1 == key then (key, now) else e)
  else cache ++ [(key, now)]

/-- The pre-transaction snapshot lookup (`existingScoresMap`): previous
`status.short` of a fixture, `none` when the fixture is not yet stored. -/
def statusShortOf (rows : List StoredScoreRow) (fid : Int) : Option String :=
  match rows.find? (fun x => x.row.fixtureId == fid) with
  | some x => some x.row.status.short
  | none => none

/-- The `justFinished` block for one batch row: decides whether (and which)
`forecastHistory` row the pass upserts for it.  `prevShort` is the
snapshot's previous status.  Mirrors: `justFinished` test, section of the
kickoff via `getDateRange`, the `endsWith("-SatMon")` gate, the
`forecast && typeof home === "number" && typeof away === "number"` guard,
and the row constructed for the upsert. -/
def historyWriteFor (rowForecastMap : List RowForecast) (prevShort : Option String)
    (currentScore : BatchRow) : Option ForecastHistoryRow :=
  if currentScore.status.short = "FT" ∧ prevShort ≠ some "FT" then
    let sectionInfo := getDateRange currentScore.startTime
    let fixtureSectionId := sectionInfo.sectionId
    if strEndsWith fixtureSectionId "-SatMon" then
      match getForecast rowForecastMap currentScore.rowNumber,
          currentScore.score.home, currentScore.score.away with
      | some forecast, some _, some _ =>
        some { fixtureId := currentScore.fixtureId
               rowNumber := currentScore.rowNumber
               weekSectionId := fixtureSectionId
               forecast := forecast
               isCorrect := isForecastCorrect currentScore.score forecast
               actualOutcome := determineActualOutcome currentScore.score }
      | _, _, _ => none
    else none
  else none

/-- The forecast-history upserts performed by one pass, in batch order. -/
def historyUpserts (rowForecastMap : List RowForecast) (prevShort : Int → Option String)
    (batch : List BatchRow) : List ForecastHistoryRow :=
  batch.filterMap (fun s => historyWriteFor rowForecastMap (prevShort s.fixtureId) s)

/-- The committed effect of one reconciliation pass (the success path of
the transaction): snapshot, per-row upserts and history writes, deletion of
ids absent from the batch, cache-marker update. -/
def runSectionPass (rowForecastMap : List RowForecast) (db : Db)
    (batch : List BatchRow) (now : Int) (cacheKey : String) : Db :=
  let prevShort := fun fid => statusShortOf db.footballScores fid
  let existingFixtureIds := db.footballScores.map (fun x => x.row.fixtureId)
  let scores1 := batch.foldl (fun acc s => upsertScoreRow acc s now) db.footballScores
  let history1 := (historyUpserts rowForecastMap prevShort batch).foldl
    (fun acc r => upsertHistoryRow acc r) db.forecastHistory
  let processedFixtureIds := batch.map (fun s => s.fixtureId)
  let idsToDelete := existingFixtureIds.filter
    (fun id => !(processedFixtureIds.contains id))
  let scores2 := scores1.filter (fun x => !(idsToDelete.contains x.row.fixtureId))
  { footballScores := scores2
    forecastHistory := history1
    apiCache := upsertCache db.apiCache cacheKey now }

/-! ### Reconciler lemmas -/

theorem contains_int_iff (l : List Int) (a : Int) : l.contains a = true ↔ a ∈ l :=
  List.elem_iff

theorem mem_map_key_upsertScoreRow (rows : List StoredScoreRow) (r : BatchRow)
    (now : Int) (id : Int) :
    (id ∈ (upsertScoreRow rows r now).map (fun x => x.row.fixtureId)
      ↔ id ∈ rows.map (fun x => x.row.fixtureId) ∨ id = r.fixtureId) := by
  unfold upsertScoreRow
  by_cases h : rows.any (fun x => x.row.fixtureId == r.fixtureId) = true
  · rw [if_pos h]
    have hkeys : (rows.map (fun x => if x.row.fixtureId == r.fixtureId then
        ({ row := r, lastUpdated := now } : StoredScoreRow) else x)).map
          (fun x => x.row.fixtureId)
        = rows.map (fun x => x.row.fixtureId) := by
      rw [List.map_map]
      refine List.map_congr_left ?_
      intro x _
      by_cases hc : (x.row.fixtureId == r.fixtureId) = true
      · simp only [Function.comp_apply, hc, reduceIte]
        exact (beq_iff_eq.1 hc).symm
      · simp only [Function.comp_apply, hc, Bool.false_eq_true, reduceIte]
    rw [hkeys]
    constructor
    · exact Or.inl
    · rintro (hm | rfl)
      · exact hm
      · obtain ⟨x, hx, hbeq⟩ := List.any_eq_true.1 h
        exact List.mem_map.2 ⟨x, hx, beq_iff_eq.1 hbeq⟩
  · rw [if_neg h, List.map_append]
    simp [List.mem_append]

theorem mem_map_key_foldl_upsert (batch : List BatchRow) (rows : List StoredScoreRow)
    (now : Int) (id : Int) :
    (id ∈ (batch.foldl (fun acc s => upsertScoreRow acc s now) rows).map
        (fun x => x.row.fixtureId)
      ↔ id ∈ rows.map (fun x => x.row.fixtureId) ∨ id ∈ batch.map (fun s => s.fixtureId)) := by
  induction batch generalizing rows with
  | nil => simp
  | cons s rest ih =>
    rw [List.foldl_cons, ih, mem_map_key_upsertScoreRow]
    simp only [List.map_cons, List.mem_cons]
    tauto

theorem mem_map_key_filter (l : List StoredScoreRow) (q : Int → Bool) (id : Int) :
    (id ∈ (l.filter (fun x => q x.row.fixtureId)).map (fun x => x.row.fixtureId)
      ↔ id ∈ l.map (fun x => x.row.fixtureId) ∧ q id = true) := by
  constructor
  · intro h
    obtain ⟨x, hx, rfl⟩ := List.mem_map.1 h
    obtain ⟨hxl, hq⟩ := List.mem_filter.1 hx
    exact ⟨List.mem_map.2 ⟨x, hxl, rfl⟩, hq⟩
  · rintro ⟨h, hq⟩
    obtain ⟨x, hx, rfl⟩ := List.mem_map.1 h
    exact List.mem_map.2 ⟨x, List.mem_filter.2 ⟨hx, hq⟩, rfl⟩

/-- **C7** (confirmed).  After one reconciliation pass commits, the set of
persisted fixture ids equals the batch's ids: every previously stored id
absent from the batch has been deleted, and every batch id is present. -/
theorem runSectionPass_persisted_ids (rowForecastMap : List RowForecast) (db : Db)
    (batch : List BatchRow) (now : Int) (cacheKey : String) (id : Int) :
    (id ∈ (runSectionPass rowForecastMap db batch now cacheKey).footballScores.map
        (fun x => x.row.fixtureId)
      ↔ id ∈ batch.map (fun s => s.fixtureId)) := by
  have hfinal : (runSectionPass rowForecastMap db batch now cacheKey).footballScores
      = (batch.foldl (fun acc s => upsertScoreRow acc s now) db.footballScores).filter
          (fun x => !(((db.footballScores.map (fun y => y.row.fixtureId)).filter
              (fun i => !((batch.map (fun s => s.fixtureId)).contains i))).contains
                x.row.fixtureId)) := rfl
  rw [hfinal]
  have hstep := mem_map_key_filter
    (batch.foldl (fun acc s => upsertScoreRow acc s now) db.footballScores)
    (fun i => !(((db.footballScores.map (fun y => y.row.fixtureId)).filter
        (fun j => !((batch.map (fun s => s.fixtureId)).contains j))).contains i)) id
  rw [hstep, mem_map_key_foldl_upsert]
  by_cases hb : id ∈ batch.map (fun s => s.fixtureId)
  · have hdel : (((db.footballScores.map (fun y => y.row.fixtureId)).filter
        (fun i => !((batch.map (fun s => s.fixtureId)).contains i))).contains id) = false := by
      rw [Bool.eq_false_iff]
      intro hc
      have hmem := contains_int_iff _ _ |>.1 hc
      have h2 := (List.mem_filter.1 hmem).2
      rw [Bool.not_eq_eq_eq_not, Bool.not_true, Bool.eq_false_iff] at h2
      exact h2 ((contains_int_iff _ _).2 hb)
    simp [hb, hdel]
    obtain ⟨x, hx, hxe⟩ := List.mem_map.1 hb
    exact Or.inr ⟨x, hx, hxe⟩
  · by_cases he : id ∈ db.footballScores.map (fun y => y.row.fixtureId)
    · have hdel : (((db.footballScores.map (fun y => y.row.fixtureId)).filter
          (fun i => !((batch.map (fun s => s.fixtureId)).contains i))).contains id) = true := by
        refine (contains_int_iff _ _).2 (List.mem_filter.2 ⟨he, ?_⟩)
        rw [Bool.not_eq_eq_eq_not, Bool.not_true, Bool.eq_false_iff]
        intro hc
        exact hb ((contains_int_iff _ _).1 hc)
      simp [hb, he, hdel]
      intro x hx hxe
      exact hb (List.mem_map.2 ⟨x, hx, hxe⟩)
    · simp [hb, he]

theorem historyWriteFor_eq_some {rfm : List RowForecast} {p : Option String}
    {s : BatchRow} {r : ForecastHistoryRow}
    (h : historyWriteFor rfm p s = some r) :
    r.fixtureId = s.fixtureId ∧
      r.weekSectionId = (getDateRange s.startTime).sectionId := by
  simp only [historyWriteFor] at h
  split at h
  · split at h
    · cases hf : getForecast rfm s.rowNumber with
      | none => rw [hf] at h; simp at h
      | some fc =>
        cases hh : s.score.home with
        | none => rw [hf, hh] at h; simp at h
        | some hv =>
          cases ha : s.score.away with
          | none => rw [hf, hh, ha] at h; simp at h
          | some av =>
            rw [hf, hh, ha] at h
            obtain rfl := Option.some.inj h
            exact ⟨rfl, rfl⟩
    · exact Option.noConfusion h
  · exact Option.noConfusion h

/-- The `endsWith("-SatMon")` gate applied to a `getDateRange` result is
exactly the section-type test. -/
theorem strEndsWith_getDateRange (d : SofiaInstant) :
    strEndsWith (getDateRange d).sectionId "-SatMon"
      = ((getDateRange d).sectionType == SectionType.SatMon) := by
  obtain ⟨b, hb⟩ := sectionId_eq d
  rw [hb, strEndsWith_sectionTypeStr]

theorem historyUpserts_filter_key (rfm : List RowForecast) (prev : Int → Option String)
    (batch : List BatchRow) (fid : Int) :
    (historyUpserts rfm prev batch).filter (fun r => r.fixtureId == fid)
      = (batch.filter (fun s => s.fixtureId == fid)).filterMap
          (fun s => historyWriteFor rfm (prev s.fixtureId) s) := by
  induction batch with
  | nil => rfl
  | cons s rest ih =>
    cases hw : historyWriteFor rfm (prev s.fixtureId) s with
    | none =>
      cases hc : (s.fixtureId == fid) with
      | true =>
        simp only [historyUpserts, List.filterMap_cons, hw, List.filter_cons, hc,
          reduceIte] at ih ⊢
        rw [ih]
      | false =>
        simp only [historyUpserts, List.filterMap_cons, hw, List.filter_cons, hc,
          Bool.false_eq_true, reduceIte] at ih ⊢
        rw [ih]
    | some r =>
      have hrid : r.fixtureId = s.fixtureId := (historyWriteFor_eq_some hw).1
      cases hc : (s.fixtureId == fid) with
      | true =>
        have hrc : (r.fixtureId == fid) = true := by rw [hrid]; exact hc
        simp only [historyUpserts, List.filterMap_cons, hw, List.filter_cons, hc, hrc,
          reduceIte] at ih ⊢
        rw [ih]
      | false =>
        have hrc : (r.fixtureId == fid) = false := by rw [hrid]; exact hc
        simp only [historyUpserts, List.filterMap_cons, hw, List.filter_cons, hc, hrc,
          Bool.false_eq_true, reduceIte] at ih ⊢
        rw [ih]

theorem filter_eq_singleton_of_countP_one {α : Type} (p : α → Bool) (f : α)
    (hp : p f = true) :
    ∀ l : List α, l.countP p = 1 → f ∈ l → l.filter p = [f] := by
  intro l
  induction l with
  | nil => intro _ hf; simp at hf
  | cons a tl ih =>
    intro hc hf
    rw [List.countP_cons] at hc
    cases ha : p a with
    | true =>
      rw [ha] at hc
      simp only [reduceIte] at hc
      have h0 : tl.countP p = 0 := by omega
      have hnil : tl.filter p = [] :=
        List.filter_eq_nil_iff.2 (List.countP_eq_zero.1 h0)
      rcases List.mem_cons.1 hf with rfl | hftl
      · simp [List.filter_cons, ha, hnil]
      · exact absurd hp (List.countP_eq_zero.1 h0 f hftl)
    | false =>
      rw [ha] at hc
      simp only [Bool.false_eq_true, reduceIte] at hc
      have hfa : f ≠ a := by
        rintro rfl
        rw [hp] at ha
        exact Bool.noConfusion ha
      have hftl : f ∈ tl := by
        rcases List.mem_cons.1 hf with rfl | h
        · exact absurd rfl hfa
        · exact h
      rw [List.filter_cons]
      simp only [ha, Bool.false_eq_true, reduceIte]
      exact ih (by omega) hftl

/-- **C2** (confirmed against the base-data reconciler
`update-section-data`).  For a fixture of the batch that transitions to
`FT` in this pass (its snapshot status was not `FT`), occurs once in the
batch, has a forecast label for its row number and numeric final-score
components: the pass performs exactly one forecast-history upsert for its
`fixtureId` when its kickoff instant maps to a SatMon-type section and zero
when it maps to a TueFri-type section; every such upsert is keyed by
`(fixtureId, sectionId of the kickoff's window)`; and the pass's history
table is exactly these upserts applied in order. -/
theorem sectionPass_history_writes (rfm : List RowForecast) (db : Db)
    (batch : List BatchRow) (now : Int) (cacheKey : String) (f : BatchRow)
    (hmem : f ∈ batch)
    (huniq : batch.countP (fun s => s.fixtureId == f.fixtureId) = 1)
    (hft : f.status.short = "FT")
    (hprev : statusShortOf db.footballScores f.fixtureId ≠ some "FT")
    (hfc : (getForecast rfm f.rowNumber).isSome = true)
    (hhome : f.score.home.isSome = true) (haway : f.score.away.isSome = true) :
    (((historyUpserts rfm (fun fid => statusShortOf db.footballScores fid) batch).filter
        (fun r => r.fixtureId == f.fixtureId)).length
      = if (getDateRange f.startTime).sectionType = .SatMon then 1 else 0) ∧
    (∀ r ∈ historyUpserts rfm (fun fid => statusShortOf db.footballScores fid) batch,
      r.fixtureId = f.fixtureId →
        r.weekSectionId = (getDateRange f.startTime).sectionId) ∧
    (runSectionPass rfm db batch now cacheKey).forecastHistory
      = (historyUpserts rfm (fun fid => statusShortOf db.footballScores fid) batch).foldl
          (fun acc r => upsertHistoryRow acc r) db.forecastHistory := by
  have hsingle : batch.filter (fun s => s.fixtureId == f.fixtureId) = [f] :=
    filter_eq_singleton_of_countP_one _ f (by simp) batch huniq hmem
  obtain ⟨fc, hfc'⟩ := Option.isSome_iff_exists.1 hfc
  obtain ⟨hv, hhv⟩ := Option.isSome_iff_exists.1 hhome
  obtain ⟨av, hav⟩ := Option.isSome_iff_exists.1 haway
  refine ⟨?_, ?_, rfl⟩
  · rw [historyUpserts_filter_key, hsingle, List.filterMap_cons]
    rw [show historyWriteFor rfm (statusShortOf db.footballScores f.fixtureId) f
        = (if (getDateRange f.startTime).sectionType = .SatMon then
            some { fixtureId := f.fixtureId
                   rowNumber := f.rowNumber
                   weekSectionId := (getDateRange f.startTime).sectionId
                   forecast := fc
                   isCorrect := isForecastCorrect f.score fc
                   actualOutcome := determineActualOutcome f.score }
          else none) from ?_]
    · cases hty : (getDateRange f.startTime).sectionType <;> simp [hty]
    · simp only [historyWriteFor]
      rw [if_pos ⟨hft, hprev⟩, strEndsWith_getDateRange, hfc', hhv, hav]
      cases hty : (getDateRange f.startTime).sectionType <;> simp [hty]
  · intro r hr hrid
    obtain ⟨s, hs, hws⟩ := List.mem_filterMap.1 hr
    obtain ⟨hsk, hsid⟩ := historyWriteFor_eq_some hws
    have hsf : s = f := by
      have hps : (s.fixtureId == f.fixtureId) = true :=
        beq_iff_eq.2 (hsk ▸ hrid)
      have : s ∈ batch.filter (fun s => s.fixtureId == f.fixtureId) :=
        List.mem_filter.2 ⟨hs, hps⟩
      rw [hsingle] at this
      exact List.mem_singleton.1 this
    rw [hsid, hsf]

/-- A concrete forecast table for the C2 witness. -/
def c2Rfm : List RowForecast := [⟨1, "1/X"⟩]

/-- A concrete finished batch row for the C2 witness: kickoff Saturday
2025-01-11 14:00 Sofia (day 20099), final score 2:1. -/
def c2Row : BatchRow :=
  { fixtureId := 7
    rowNumber := 1
    day := "Saturday, Jan 11"
    startTime := ⟨20099, 14⟩
    status := { long := "Match Finished", short := "FT", elapsed := some 90 }
    home := { id := 100, name := "Home FC", logo := "h.png", winner := some true }
    away := { id := 200, name := "Away FC", logo := "a.png", winner := some false }
    score := { home := some 2, away := some 1 }
    league := { id := 39, name := "Premier League", country := "England",
                logo := "l.png", flag := "e.png", season := 2024, round := "Round 21" }
    odds := { home := "1.50", draw := "3.80", away := "5.25" } }

/-- An empty prior database state. -/
def c2Db : Db := { footballScores := [], forecastHistory := [], apiCache := [] }

/-- Witness for C2: under the concrete table, database and batch above
(kickoff in a SatMon window), the pass performs exactly one history upsert
for the fixture. -/
theorem sectionPass_history_writes_witness :
    ((historyUpserts c2Rfm (fun fid => statusShortOf c2Db.footballScores fid)
        [c2Row]).filter (fun r => r.fixtureId == c2Row.fixtureId)).length = 1 := by
  have h := sectionPass_history_writes c2Rfm c2Db [c2Row] 0 "football_scores_base_data"
    c2Row (List.mem_singleton.2 rfl) (by decide) rfl (by decide) (by decide) rfl rfl
  rw [h.1]
  rw [if_pos (by decide)]

/-! ### Transaction atomicity (C6)

The pass is re-expressed as the sequence of primitive database statements
executed inside `db.transaction(async (tx) => …)`, with an injected failure
oracle `fail : Nat → Bool` saying which statement (by execution index)
throws.  The all-or-nothing rollback of `db.transaction` is the transaction
model here — that part is the ORM/database contract, not repository code.
What is verified against the repository is that all three effect groups
(row upserts, history writes, the delete) plus the cache-marker write run
inside the single transaction callback, in the source's order, and that the
route's `catch` converts any transaction failure into the generic error
response while the persisted state stays the pre-transaction one. -/

/-- The statements one batch row contributes in the loop: its
`footballScores` upsert and, when the `justFinished`/SatMon/forecast guards
fire, its `forecastHistory` upsert. -/
def rowOps (rfm : List RowForecast) (prevShort : Int → Option String) (now : Int)
    (s : BatchRow) : List (Db → Db) :=
  [fun db => { db with footballScores := upsertScoreRow db.footballScores s now }] ++
    (match historyWriteFor rfm (prevShort s.fixtureId) s with
     | some r =>
       [fun db => { db with forecastHistory := upsertHistoryRow db.forecastHistory r }]
     | none => [])

/-- All statements of one pass, in source order: the per-row loop, the
single batched delete (issued only when `idsToDelete` is non-empty), the
cache-marker write. -/
def passOps (rfm : List RowForecast) (db0 : Db) (batch : List BatchRow)
    (now : Int) (cacheKey : String) : List (Db → Db) :=
  let prevShort := fun fid => statusShortOf db0.footballScores fid
  let existingFixtureIds := db0.footballScores.map (fun x => x.row.fixtureId)
  let processedFixtureIds := batch.map (fun s => s.fixtureId)
  let idsToDelete := existingFixtureIds.filter
    (fun id => !(processedFixtureIds.contains id))
  batch.flatMap (rowOps rfm prevShort now) ++
    (if idsToDelete.isEmpty then [] else
      [fun db => { db with footballScores :=
        db.footballScores.filter (fun x => !(idsToDelete.contains x.row.fixtureId)) }]) ++
    [fun db => { db with apiCache := upsertCache db.apiCache cacheKey now }]

/-- Execute statements in order; statement `i` throws when `fail i`. -/
def runOps (fail : Nat → Bool) : List (Db → Db) → Db × Nat → Except Unit (Db × Nat)
  | [], st => .ok st
  | op :: rest, st =>
    if fail st.2 then .error () else runOps fail rest (op st.1, st.2 + 1)

/-- The transaction body of one pass under the failure oracle. -/
def passBody (rfm : List RowForecast) (fail : Nat → Bool) (db0 : Db)
    (batch : List BatchRow) (now : Int) (cacheKey : String) : Except Unit Db :=
  (runOps fail (passOps rfm db0 batch now cacheKey) (db0, 0)).map (fun st => st.1)

/-- The route handler's outcome. -/
inductive RouteResponse where
  | success
  | failure
  deriving DecidableEq, Repr

/-- `await db.transaction(...)` inside the route's `try`/`catch`: on
success the final state commits and the handler reports success; a thrown
statement aborts the transaction (rollback to the pre-transaction state)
and the `catch` returns the generic 500 response. -/
def updateSectionDataRoute (rfm : List RowForecast) (fail : Nat → Bool) (db0 : Db)
    (batch : List BatchRow) (now : Int) (cacheKey : String) : Db × RouteResponse :=
  match passBody rfm fail db0 batch now cacheKey with
  | .ok db1 => (db1, .success)
  | .error _ => (db0, .failure)

/-- Apply statements in order (the effect of a fully successful body). -/
def applyOps (ops : List (Db → Db)) (db : Db) : Db :=
  ops.foldl (fun d op => op d) db

theorem applyOps_append (l1 l2 : List (Db → Db)) (db : Db) :
    applyOps (l1 ++ l2) db = applyOps l2 (applyOps l1 db) :=
  List.foldl_append _ _ l1 l2

theorem runOps_noFail (ops : List (Db → Db)) (db : Db) (n : Nat) :
    runOps (fun _ => false) ops (db, n) = .ok (applyOps ops db, n + ops.length) := by
  induction ops generalizing db n with
  | nil => simp [runOps, applyOps]
  | cons op rest ih =>
    simp only [runOps, Bool.false_eq_true, reduceIte, ih, applyOps, List.foldl_cons,
      List.length_cons]
    congr 2
    omega

/-- The interleaved per-row statements equal the score-upsert fold followed
by the history-write fold: the loop writes to two disjoint tables and its
`justFinished` test only reads the pre-transaction snapshot. -/
theorem applyOps_flatMap_rowOps (rfm : List RowForecast)
    (prevShort : Int → Option String) (now : Int) (batch : List BatchRow) (db : Db) :
    applyOps (batch.flatMap (rowOps rfm prevShort now)) db
      = { footballScores := batch.foldl (fun acc s => upsertScoreRow acc s now)
            db.footballScores
          forecastHistory := (historyUpserts rfm prevShort batch).foldl
            (fun acc r => upsertHistoryRow acc r) db.forecastHistory
          apiCache := db.apiCache } := by
  induction batch generalizing db with
  | nil => rfl
  | cons s rest ih =>
    rw [List.flatMap_cons, applyOps_append]
    cases hw : historyWriteFor rfm (prevShort s.fixtureId) s with
    | none =>
      have h1 : applyOps (rowOps rfm prevShort now s) db
          = { db with footballScores := upsertScoreRow db.footballScores s now } := by
        simp [rowOps, hw, applyOps]
      rw [h1, ih]
      simp only [historyUpserts, List.filterMap_cons, hw, List.foldl_cons]
    | some r =>
      have h1 : applyOps (rowOps rfm prevShort now s) db
          = { footballScores := upsertScoreRow db.footballScores s now
              forecastHistory := upsertHistoryRow db.forecastHistory r
              apiCache := db.apiCache } := by
        simp [rowOps, hw, applyOps]
      rw [h1, ih]
      simp only [historyUpserts, List.filterMap_cons, hw, List.foldl_cons]

/-- **C6** (confirmed, with the rollback semantics of `db.transaction`
taken as the ORM/database contract).  All database effects of one
reconciliation pass — the per-row upserts, the forecast-history writes, the
delete of absent rows and the cache-marker write — execute inside the
single transaction body: if any statement fails, the route leaves the
persisted state unchanged and answers the generic failure response; if none
fails, the committed state is exactly `runSectionPass` and the route
answers success. -/
theorem sectionPass_transaction_atomic (rfm : List RowForecast) (fail : Nat → Bool)
    (db0 : Db) (batch : List BatchRow) (now : Int) (cacheKey : String) :
    (∀ e, passBody rfm fail db0 batch now cacheKey = .error e →
      updateSectionDataRoute rfm fail db0 batch now cacheKey = (db0, .failure)) ∧
    (∀ db1, passBody rfm fail db0 batch now cacheKey = .ok db1 →
      updateSectionDataRoute rfm fail db0 batch now cacheKey = (db1, .success)) ∧
    passBody rfm (fun _ => false) db0 batch now cacheKey
      = .ok (runSectionPass rfm db0 batch now cacheKey) := by
  refine ⟨?_, ?_, ?_⟩
  · intro e he
    simp [updateSectionDataRoute, he]
  · intro db1 hok
    simp [updateSectionDataRoute, hok]
  · unfold passBody
    rw [runOps_noFail]
    simp only [Except.map]
    congr 1
    simp only [passOps]
    rw [applyOps_append, applyOps_append, applyOps_flatMap_rowOps]
    cases hemp : ((db0.footballScores.map (fun x => x.row.fixtureId)).filter
        (fun id => !((batch.map (fun s => s.fixtureId)).contains id))).isEmpty with
    | true =>
      have hnil : (db0.footballScores.map (fun x => x.row.fixtureId)).filter
          (fun id => !((batch.map (fun s => s.fixtureId)).contains id)) = [] :=
        List.isEmpty_iff.1 hemp
      simp only [hemp, reduceIte]
      simp only [applyOps, List.foldl_nil, List.foldl_cons, runSectionPass, hnil]
      simp
    | false =>
      simp only [hemp, Bool.false_eq_true, reduceIte]
      rfl

/-- Witness for C6: with a first-statement failure the route reports
failure and the state is the untouched prior database; with no failure it
commits exactly the pure pass result and reports success. -/
theorem sectionPass_transaction_atomic_witness :
    updateSectionDataRoute c2Rfm (fun _ => true) c2Db [c2Row] 0
        "football_scores_base_data" = (c2Db, .failure) ∧
    updateSectionDataRoute c2Rfm (fun _ => false) c2Db [c2Row] 0
        "football_scores_base_data"
      = (runSectionPass c2Rfm c2Db [c2Row] 0 "football_scores_base_data",
          .success) := by
  refine ⟨?_, ?_⟩
  · exact (sectionPass_transaction_atomic c2Rfm (fun _ => true) c2Db [c2Row] 0
      "football_scores_base_data").1 () rfl
  · exact (sectionPass_transaction_atomic c2Rfm (fun _ => false) c2Db [c2Row] 0
      "football_scores_base_data").2.1 _
      (sectionPass_transaction_atomic c2Rfm (fun _ => false) c2Db [c2Row] 0
        "football_scores_base_data").2.2
